import Mathlib

/-!
Shallow embedding of the Vitasoft client-side "Optimistic Task Cache":
the similarity matcher, the optimistic mutation engine (create / update /
toggle-complete / delete with snapshot and rollback), and the derived view
builder (summary counts and due-date urgency grouping).

Strings are modelled as lists of characters; timestamps as natural numbers
of milliseconds since the epoch, with days laid out uniformly (the local
time zone is abstracted away).  The platform date parser (JS `new Date`)
is an explicit parameter `parseDate : Str → Option Nat`, returning `none`
for an invalid date (NaN).
-/

namespace Vitasoft

/-- Strings are modelled as lists of characters. -/
abbrev Str := List Char

/-- Whitespace characters recognised by trimming and collapsing
(the subset of JS whitespace relevant here). -/
def isWS (c : Char) : Bool :=
  c == ' ' || c == '\t' || c == '\n' || c == '\r'

/-- Drop the leading whitespace of a string. -/
def dropWS : Str → Str
  | [] => []
  | c :: cs => if isWS c then dropWS cs else c :: cs

/-- Remove leading and trailing whitespace, as JS `String.prototype.trim`. -/
def trimWS (s : Str) : Str :=
  dropWS ((dropWS s.reverse).reverse)

/-- Helper for whitespace collapsing: the flag records whether the previous
character was whitespace, so that a maximal run contributes one space. -/
def collapseWSAux : Bool → Str → Str
  | _, [] => []
  | prevWS, c :: cs =>
    if isWS c then
      if prevWS then collapseWSAux true cs
      else ' ' :: collapseWSAux true cs
    else c :: collapseWSAux false cs

/-- Replace every maximal run of whitespace by a single space,
as the regex replacement in `normalizeTitle`. -/
def collapseWS (s : Str) : Str :=
  collapseWSAux false s

/-- Substring test over character lists, as JS `String.prototype.includes`:
`isSubstrOf needle hay` holds when `needle` occurs contiguously in `hay`. -/
def isSubstrOf (needle : Str) : Str → Bool
  | [] => needle.isPrefixOf []
  | c :: rest => needle.isPrefixOf (c :: rest) || isSubstrOf needle rest

/-- Title normalization from the source: lowercase, trim, then collapse
internal whitespace runs to a single space. -/
def normalizeTitle (s : Str) : Str :=
  collapseWS (trimWS (s.map Char.toLower))

/-- Words of a normalized title: split on spaces and drop empty pieces,
as the source's split-and-filter. -/
def wordsOf (s : Str) : List Str :=
  (s.splitOn ' ').filter (fun w => !w.isEmpty)

/-- The source's `areTitlesSimilar`: empty normalized candidate is never
similar; exact normalized equality is; substring containment with both
lengths at least two is; otherwise the word-overlap test fires when
`matchCount / min(|wordsA|, |wordsB|) ≥ 0.6`, stated exactly over the
rationals as `3 * min ≤ 5 * matchCount`. -/
def areTitlesSimilar (newTitle existingTitle : Str) : Bool :=
  let a := normalizeTitle newTitle
  let b := normalizeTitle existingTitle
  if a.isEmpty then false
  else if a == b then true
  else if (decide (2 ≤ a.length) && decide (2 ≤ b.length))
      && (isSubstrOf b a || isSubstrOf a b) then true
  else
    let wordsA := wordsOf a
    let wordsB := wordsOf b
    if wordsA.isEmpty || wordsB.isEmpty then false
    else decide (3 * min wordsA.length wordsB.length
        ≤ 5 * (wordsA.filter (fun w => wordsB.contains w)).length)

/-- Task priority enumeration. -/
inductive Priority where
  | low
  | medium
  | high
deriving DecidableEq, Repr

/-- The Task entity as held in the client collection.  `description`,
`dueDate` and `priority` are nullable or optional in the source; timestamps
(`createdAt`, and the parsed value of `dueDate`) are milliseconds. -/
structure Task where
  id : Nat
  title : Str
  description : Option Str
  completed : Bool
  createdAt : Nat
  dueDate : Option Str
  priority : Option Priority
deriving DecidableEq, Repr

/-- The source's `findSimilarTasks`: empty normalized candidate yields no
matches, otherwise filter the collection by `areTitlesSimilar`. -/
def findSimilarTasks (newTitle : Str) (tasks : List Task) : List Task :=
  if (normalizeTitle newTitle).isEmpty then []
  else tasks.filter (fun t => areTitlesSimilar newTitle t.title)

/-! Time model: milliseconds since the epoch, uniform days. -/

def msPerHour : Nat := 3600000

def msPerDay : Nat := 86400000

/-- Midnight at the start of the day containing `t`, as date-fns
`startOfDay` with the local time zone abstracted to a uniform day grid. -/
def startOfDay (t : Nat) : Nat :=
  t / msPerDay * msPerDay

/-- The last millisecond of the day containing `t` (date-fns `endOfDay`
sets 23:59:59.999). -/
def endOfDay (t : Nat) : Nat :=
  startOfDay t + (msPerDay - 1)

/-- Shift a time forward by `h` hours (date-fns `addHours`). -/
def addHours (t h : Nat) : Nat :=
  t + h * msPerHour

def DUE_SOON_HOURS : Nat := 48

/-- JS truthiness of the `dueDate` field: present and not the empty
string. -/
def hasDue (t : Task) : Bool :=
  match t.dueDate with
  | some s => !s.isEmpty
  | none => false

/-! Derived view builder: urgency grouping. -/

/-- The three urgency buckets of the notification component. -/
inductive DueGroup where
  | overdue
  | dueToday
  | dueSoon
deriving DecidableEq, Repr

/-- The source's `getDueGroup`.  A date the parser rejects (NaN) fails every
comparison and reaches the final fallback, as do dates more than 48 hours
out: the source ends with an unconditional `return 'dueSoon'`. -/
def getDueGroup (parseDate : Str → Option Nat) (dueDate : Str) (now : Nat) :
    DueGroup :=
  match parseDate dueDate with
  | none => DueGroup.dueSoon
  | some d =>
    if d < startOfDay now then DueGroup.overdue
    else if startOfDay now ≤ d ∧ d ≤ endOfDay now then DueGroup.dueToday
    else if endOfDay now < d ∧
        (d < addHours now DUE_SOON_HOURS ∨ d = addHours now DUE_SOON_HOURS) then
      DueGroup.dueSoon
    else DueGroup.dueSoon

/-- The accumulation loop of `groupUrgentTasks`: skip completed tasks and
tasks without a (truthy) due date, and route the rest to the bucket chosen
by `getDueGroup`, preserving order. -/
def partitionUrgent (parseDate : Str → Option Nat) (now : Nat) :
    List Task → List Task × List Task × List Task
  | [] => ([], [], [])
  | t :: ts =>
    let rest := partitionUrgent parseDate now ts
    if t.completed || !hasDue t then rest
    else
      match getDueGroup parseDate (t.dueDate.getD []) now with
      | DueGroup.overdue => (t :: rest.1, rest.2.1, rest.2.2)
      | DueGroup.dueToday => (rest.1, t :: rest.2.1, rest.2.2)
      | DueGroup.dueSoon => (rest.1, rest.2.1, t :: rest.2.2)

/-- The source's `groupUrgentTasks`: the three buckets in fixed order,
empty buckets omitted. -/
def groupUrgentTasks (parseDate : Str → Option Nat) (tasks : List Task)
    (now : Nat) : List (DueGroup × List Task) :=
  let p := partitionUrgent parseDate now tasks
  (if p.1.isEmpty then [] else [(DueGroup.overdue, p.1)]) ++
    (if p.2.1.isEmpty then [] else [(DueGroup.dueToday, p.2.1)]) ++
    (if p.2.2.isEmpty then [] else [(DueGroup.dueSoon, p.2.2)])

/-! Derived view builder: summary counts. -/

/-- Result of the source's `taskSummary` memo. -/
structure TaskSummary where
  total : Nat
  completed : Nat
  pending : Nat
  overdue : Nat
deriving DecidableEq, Repr

/-- The overdue predicate of `taskSummary`: incomplete, truthy `dueDate`,
parseable, and strictly before the start of the current day. -/
def isOverdueAt (parseDate : Str → Option Nat) (todayStart : Nat)
    (t : Task) : Bool :=
  if t.completed || !hasDue t then false
  else
    match parseDate (t.dueDate.getD []) with
    | none => false
    | some d => decide (d < todayStart)

/-- The source's `taskSummary`. -/
def taskSummary (parseDate : Str → Option Nat) (now : Nat)
    (tasks : List Task) : TaskSummary :=
  { total := tasks.length
    completed := (tasks.filter (fun t => t.completed)).length
    pending := (tasks.filter (fun t => !t.completed)).length
    overdue := (tasks.filter (isOverdueAt parseDate (startOfDay now))).length }

/-! Optimistic mutation engine. -/

/-- The create form's values (all text fields; empty string stands for the
absent value, as in the source). -/
structure TaskFormValues where
  title : Str
  description : Str
  priority : Priority
  dueDate : Str
deriving DecidableEq, Repr

/-- The provisional task built by `createMutation.onMutate`: the id and
`createdAt` placeholder both come from the current clock (`Date.now()` /
`new Date().toISOString()`), and falsy strings become null. -/
def createOptimisticTask (values : TaskFormValues) (now : Nat) : Task :=
  { id := now
    title := values.title
    description := if values.description.isEmpty then none
      else some values.description
    completed := false
    createdAt := now
    dueDate := if values.dueDate.isEmpty then none else some values.dueDate
    priority := some values.priority }

/-- Optimistic apply of create: append the provisional task. -/
def createOnMutate (values : TaskFormValues) (now : Nat)
    (previousTasks : List Task) : List Task :=
  previousTasks ++ [createOptimisticTask values now]

/-- The update payload: each field is present (`some`) or absent (`none`),
as `undefined` checks in the source. -/
structure UpdateValues where
  title : Option Str
  description : Option Str
  completed : Option Bool
  priority : Option Priority
  dueDate : Option Str
deriving DecidableEq, Repr

/-- Field merge of `updateMutation.onMutate`: provided fields overwrite,
absent fields keep the task's value; a provided falsy `dueDate` becomes
null. -/
def applyUpdate (values : UpdateValues) (t : Task) : Task :=
  { t with
    title := values.title.getD t.title
    description := match values.description with
      | some d => some d
      | none => t.description
    completed := values.completed.getD t.completed
    priority := match values.priority with
      | some p => some p
      | none => t.priority
    dueDate := match values.dueDate with
      | some s => if s.isEmpty then none else some s
      | none => t.dueDate }

/-- Optimistic apply of update: replace the matching-id elements. -/
def updateOnMutate (id : Nat) (values : UpdateValues)
    (previousTasks : List Task) : List Task :=
  previousTasks.map (fun t => if t.id = id then applyUpdate values t else t)

/-- Optimistic apply of toggle-complete: negate `completed` of the
matching-id elements. -/
def toggleOnMutate (taskId : Nat) (previousTasks : List Task) : List Task :=
  previousTasks.map (fun t =>
    if t.id = taskId then { t with completed := !t.completed } else t)

/-- Optimistic apply of delete: drop the matching-id elements. -/
def deleteOnMutate (taskId : Nat) (previousTasks : List Task) : List Task :=
  previousTasks.filter (fun t => t.id != taskId)

/-- One intended mutation, with the clock value for create. -/
inductive MutationOp where
  | createOp (values : TaskFormValues) (now : Nat)
  | updateOp (id : Nat) (values : UpdateValues)
  | toggleOp (id : Nat)
  | deleteOp (id : Nat)

/-- The optimistic apply of each mutation, as the four `onMutate`
handlers. -/
def optimisticApply : MutationOp → List Task → List Task
  | MutationOp.createOp v now, ts => createOnMutate v now ts
  | MutationOp.updateOp i v, ts => updateOnMutate i v ts
  | MutationOp.toggleOp i, ts => toggleOnMutate i ts
  | MutationOp.deleteOp i, ts => deleteOnMutate i ts

/-- Engine state: the shared collection, the per-operation snapshots of
in-flight mutations (the `previousTasks` contexts, keyed by operation), and
a count of failure signals surfaced to the UI. -/
structure EngineState where
  coll : List Task
  pending : List (Nat × List Task)
  failures : Nat
deriving Repr

/-- Start a mutation: capture the snapshot (`previousTasks`) and install
the optimistic collection, as `onMutate`. -/
def startMutation (key : Nat) (op : MutationOp) (st : EngineState) :
    EngineState :=
  { coll := optimisticApply op st.coll
    pending := (key, st.coll) :: st.pending
    failures := st.failures }

/-- Settle a mutation as failed: restore the snapshot held in the
operation's context and emit a failure signal, as `onError`. -/
def settleFailure (key : Nat) (st : EngineState) : EngineState :=
  match st.pending.lookup key with
  | some snapshot =>
    { coll := snapshot
      pending := st.pending.eraseP (fun p => p.1 == key)
      failures := st.failures + 1 }
  | none => st

/-- Run a list of mutation starts in order (operations that begin while an
earlier one is still in flight). -/
def runStarts (ops : List (Nat × MutationOp)) (st : EngineState) :
    EngineState :=
  ops.foldl (fun s p => startMutation p.1 p.2 s) st

/-! Create submission (validation before any optimistic apply). -/

/-- Outcome of `handleCreateSubmit`: early return, duplicate warning modal,
or submission of the mutation. -/
inductive SubmitOutcome where
  | rejected
  | duplicateWarning (similar : List Task)
  | submitted (values : TaskFormValues)

/-- The source's `isDueDateValid`: blank input is valid, otherwise the
parsed date must not be NaN. -/
def isDueDateValid (parseDate : Str → Option Nat) (value : Str) : Bool :=
  if (trimWS value).isEmpty then true
  else (parseDate value).isSome

/-- The source's `handleCreateSubmit` decision: reject on blank title or
invalid due date, warn when similar tasks exist, otherwise submit. -/
def handleCreateSubmit (parseDate : Str → Option Nat)
    (formValues : TaskFormValues) (tasks : List Task) : SubmitOutcome :=
  if (trimWS formValues.title).isEmpty then SubmitOutcome.rejected
  else if !isDueDateValid parseDate formValues.dueDate then
    SubmitOutcome.rejected
  else
    let similar := findSimilarTasks formValues.title tasks
    if !similar.isEmpty then SubmitOutcome.duplicateWarning similar
    else SubmitOutcome.submitted formValues

/-- Effect of one submission attempt on the collection: only a submitted
mutation reaches `onMutate`; a rejection or a pending duplicate warning
leaves the collection untouched. -/
def submitThenApply (parseDate : Str → Option Nat)
    (formValues : TaskFormValues) (tasks : List Task) (now : Nat) :
    List Task :=
  match handleCreateSubmit parseDate formValues tasks with
  | SubmitOutcome.submitted v => createOnMutate v now tasks
  | _ => tasks

/-! Spec-side definition for the word-overlap refinement claim. -/

/-- Modelled from the spec: the distinct word set of a normalized string
("split both normalized strings on spaces into word sets"). -/
def specWordSet (s : Str) : List Str :=
  (wordsOf s).dedup

/-- Modelled from the spec: the word-overlap rule computed over word sets —
distinct shared words over the smaller distinct-word count, flagged at
ratio at least 0.6, never flagging when either set is empty. -/
def specWordOverlapFlag (newTitle existingTitle : Str) : Bool :=
  let wa := specWordSet (normalizeTitle newTitle)
  let wb := specWordSet (normalizeTitle existingTitle)
  if wa.isEmpty || wb.isEmpty then false
  else decide (3 * min wa.length wb.length
      ≤ 5 * (wa.filter (fun w => wb.contains w)).length)

/-- A fixed interpretation of the platform date parser for the concrete
examples of the spec, mapping the spec's ISO date strings to their epoch
milliseconds. -/
def demoParse (s : Str) : Option Nat :=
  if s = "2024-01-09T23:00".toList then some 1704841200000
  else if s = "2024-01-10T18:00".toList then some 1704909600000
  else if s = "2024-01-12T10:00".toList then some 1705053600000
  else if s = "2024-01-15T00:00".toList then some 1705276800000
  else none

/-- Builder for the concrete sample tasks used in the examples. -/
def sampleTask (i : Nat) (done : Bool) (due : Option Str) : Task :=
  { id := i, title := "Task".toList, description := none, completed := done,
    createdAt := 0, dueDate := due, priority := none }

/-! Helper lemmas. -/

theorem length_le_of_isPrefixOf :
    ∀ (n h : Str), n.isPrefixOf h = true → n.length ≤ h.length
  | [], _, _ => Nat.zero_le _
  | a :: as, [], hp => by simp [List.isPrefixOf] at hp
  | a :: as, b :: bs, hp => by
    simp only [List.isPrefixOf, Bool.and_eq_true] at hp
    exact Nat.succ_le_succ (length_le_of_isPrefixOf as bs hp.2)

theorem length_le_of_isSubstrOf (n : Str) :
    ∀ (h : Str), isSubstrOf n h = true → n.length ≤ h.length
  | [], hs => length_le_of_isPrefixOf n [] hs
  | c :: rest, hs => by
    simp only [isSubstrOf, Bool.or_eq_true] at hs
    rcases hs with hp | hr
    · exact length_le_of_isPrefixOf n (c :: rest) hp
    · exact Nat.le_succ_of_le (length_le_of_isSubstrOf n rest hr)

theorem toLower_of_isWS (c : Char) (h : isWS c = true) : c.toLower = c := by
  simp only [isWS, Bool.or_eq_true, beq_iff_eq] at h
  rcases h with ((h | h) | h) | h <;> subst h <;> decide

theorem dropWS_eq_nil (s : Str) (h : ∀ c ∈ s, isWS c = true) :
    dropWS s = [] := by
  induction s with
  | nil => rfl
  | cons c cs ih =>
    have hc : isWS c = true := h c (by simp)
    simp only [dropWS, hc, if_pos]
    exact ih (fun d hd => h d (by simp [hd]))

theorem normalizeTitle_of_blank (s : Str) (h : ∀ c ∈ s, isWS c = true) :
    normalizeTitle s = [] := by
  have hlow : ∀ c ∈ s.map Char.toLower, isWS c = true := by
    intro c hc
    rcases List.mem_map.mp hc with ⟨d, hd, rfl⟩
    rw [toLower_of_isWS d (h d hd)]
    exact h d hd
  have h1 : dropWS (s.map Char.toLower) = [] := dropWS_eq_nil _ hlow
  -- the inner drop of trimWS acts on the reverse
  have h2 : dropWS (s.map Char.toLower).reverse = [] := by
    refine dropWS_eq_nil _ ?_
    intro c hc
    exact hlow c (List.mem_reverse.mp hc)
  simp [normalizeTitle, trimWS, h2, dropWS, collapseWS, collapseWSAux]

theorem lookup_runStarts (k : Nat) :
    ∀ (ops : List (Nat × MutationOp)) (st : EngineState),
      (∀ p ∈ ops, p.1 ≠ k) →
      (runStarts ops st).pending.lookup k = st.pending.lookup k
  | [], _, _ => rfl
  | p :: ops, st, h => by
    have h1 : p.1 ≠ k := h p (by simp)
    have h2 : ∀ q ∈ ops, q.1 ≠ k := fun q hq => h q (by simp [hq])
    have hstep : runStarts (p :: ops) st
        = runStarts ops (startMutation p.1 p.2 st) := rfl
    rw [hstep, lookup_runStarts k ops _ h2]
    have hne : (k == p.1) = false := by
      simp [Ne.symm h1]
    simp [startMutation, List.lookup, hne]

theorem toggle_pointwise (i : Nat) (c : List Task) :
    List.Forall₂ (fun t tNew =>
      tNew.id = t.id ∧ tNew.title = t.title ∧
      tNew.description = t.description ∧ tNew.createdAt = t.createdAt ∧
      tNew.dueDate = t.dueDate ∧ tNew.priority = t.priority ∧
      tNew.completed = (if t.id = i then !t.completed else t.completed))
      c (toggleOnMutate i c) := by
  induction c with
  | nil => simp [toggleOnMutate]
  | cons t ts ih =>
    simp only [toggleOnMutate, List.map_cons]
    refine List.Forall₂.cons ?_ ih
    by_cases ht : t.id = i <;> simp [ht]

/-! Claim theorems. -/

/-- C1: with now = 2024-01-10T12:00 (1704888000000 ms) the urgency grouping
sends an incomplete task due 2024-01-09T23:00 to overdue, one due
2024-01-10T18:00 to dueToday and one due 2024-01-12T10:00 to dueSoon, as
the claim says — but the incomplete task due 2024-01-15T00:00, more than
48 hours out, is NOT left without a bucket: the unconditional fallback
branch of `getDueGroup` places it in dueSoon, where the claim (and the
source's own comment on that branch) requires it to appear in no group. -/
theorem dueSoon_fallback_captures_far_future :
    getDueGroup demoParse "2024-01-15T00:00".toList 1704888000000
        = DueGroup.dueSoon ∧
    groupUrgentTasks demoParse
        [sampleTask 1 false (some "2024-01-09T23:00".toList),
         sampleTask 2 false (some "2024-01-10T18:00".toList),
         sampleTask 3 false (some "2024-01-12T10:00".toList),
         sampleTask 4 false (some "2024-01-15T00:00".toList)]
        1704888000000
      = [(DueGroup.overdue,
            [sampleTask 1 false (some "2024-01-09T23:00".toList)]),
         (DueGroup.dueToday,
            [sampleTask 2 false (some "2024-01-10T18:00".toList)]),
         (DueGroup.dueSoon,
            [sampleTask 3 false (some "2024-01-12T10:00".toList),
             sampleTask 4 false (some "2024-01-15T00:00".toList)])] := by
  decide

/-- C2: for every mutation and starting state, if the gateway request fails
after the optimistic apply and no other operation settled in between (any
number of other operations may have started and applied optimistically),
the rollback restores the collection to exactly the snapshot captured
before this mutation's optimistic apply, and one failure signal is
emitted. -/
theorem rollback_restores_snapshot (op : MutationOp) (key : Nat)
    (st0 : EngineState) (others : List (Nat × MutationOp))
    (h : ∀ p ∈ others, p.1 ≠ key) :
    (settleFailure key (runStarts others (startMutation key op st0))).coll
        = st0.coll ∧
    (settleFailure key (runStarts others (startMutation key op st0))).failures
        = (runStarts others (startMutation key op st0)).failures + 1 := by
  have hl : (runStarts others (startMutation key op st0)).pending.lookup key
      = some st0.coll := by
    rw [lookup_runStarts key others _ h]
    simp [startMutation, List.lookup]
  constructor <;> simp [settleFailure, hl]

/-- C2 witness: toggling task 5 while a delete starts concurrently, then
failing the toggle, restores the original one-task collection and emits
one failure signal. -/
theorem rollback_restores_snapshot_witness :
    (settleFailure 1 (runStarts [(2, MutationOp.deleteOp 5)]
        (startMutation 1 (MutationOp.toggleOp 5)
          ⟨[sampleTask 5 false none], [], 0⟩))).coll
      = [sampleTask 5 false none] ∧
    (settleFailure 1 (runStarts [(2, MutationOp.deleteOp 5)]
        (startMutation 1 (MutationOp.toggleOp 5)
          ⟨[sampleTask 5 false none], [], 0⟩))).failures
      = (runStarts [(2, MutationOp.deleteOp 5)]
          (startMutation 1 (MutationOp.toggleOp 5)
            ⟨[sampleTask 5 false none], [], 0⟩)).failures + 1 :=
  rollback_restores_snapshot (MutationOp.toggleOp 5) 1
    ⟨[sampleTask 5 false none], [], 0⟩ [(2, MutationOp.deleteOp 5)]
    (by decide)

/-- C3: the provisional id of an optimistic create is the raw clock value
(`Date.now()`), with no collision check: creating at clock value
1704888000000 into a collection already holding a task with that id yields
two tasks with the same id, so task ids are NOT pairwise distinct during
the optimistic window, contrary to the claimed invariant. -/
theorem provisional_id_collision :
    ((createOnMutate ⟨"New task".toList, [], Priority.medium, []⟩
        1704888000000 [sampleTask 1704888000000 false none]).map Task.id
      = [1704888000000, 1704888000000]) ∧
    ¬ ((createOnMutate ⟨"New task".toList, [], Priority.medium, []⟩
        1704888000000 [sampleTask 1704888000000 false none]).map
          Task.id).Nodup := by
  decide

/-- C4 counterexample: for candidate "go go alpha beta" against existing
"go zed", neither exact equality nor containment applies and the claim's
set-based word-overlap rule does not flag (one shared distinct word over
min(3, 2) gives 0.5 < 0.6), yet the code flags the pair similar, because
its rule counts the duplicated word of the candidate's word list twice. -/
theorem word_overlap_set_rule_refuted :
    areTitlesSimilar "go go alpha beta".toList "go zed".toList = true ∧
    specWordOverlapFlag "go go alpha beta".toList "go zed".toList = false ∧
    normalizeTitle "go go alpha beta".toList
      ≠ normalizeTitle "go zed".toList ∧
    isSubstrOf (normalizeTitle "go go alpha beta".toList)
      (normalizeTitle "go zed".toList) = false ∧
    isSubstrOf (normalizeTitle "go zed".toList)
      (normalizeTitle "go go alpha beta".toList) = false := by
  decide

/-- C4 (amended): the word-overlap rule works on word LISTS with duplicates
retained: when the normalized titles are distinct, the normalized candidate
is nonempty and the containment rule does not apply, the matcher flags the
pair exactly when both word lists are nonempty and
matchCount / min(|wordsA|, |wordsB|) ≥ 0.6, where matchCount counts the
positions of the candidate's word list whose word occurs in the existing
title's word list and the denominators are the list lengths. -/
theorem word_overlap_rule_on_lists (x y : Str)
    (h1 : normalizeTitle x ≠ [])
    (h2 : normalizeTitle x ≠ normalizeTitle y)
    (h3 : ¬ (2 ≤ (normalizeTitle x).length ∧
        2 ≤ (normalizeTitle y).length ∧
        (isSubstrOf (normalizeTitle y) (normalizeTitle x) = true ∨
          isSubstrOf (normalizeTitle x) (normalizeTitle y) = true))) :
    areTitlesSimilar x y = true ↔
      (wordsOf (normalizeTitle x) ≠ [] ∧ wordsOf (normalizeTitle y) ≠ [] ∧
        3 * min (wordsOf (normalizeTitle x)).length
            (wordsOf (normalizeTitle y)).length
          ≤ 5 * ((wordsOf (normalizeTitle x)).filter
              (fun w => (wordsOf (normalizeTitle y)).contains w)).length) := by
  have ha : (normalizeTitle x).isEmpty = false := by
    cases hx : normalizeTitle x with
    | nil => exact absurd hx h1
    | cons c cs => rfl
  have hab : (normalizeTitle x == normalizeTitle y) = false := by
    simp [h2]
  have hcond : ((decide (2 ≤ (normalizeTitle x).length)
        && decide (2 ≤ (normalizeTitle y).length))
      && (isSubstrOf (normalizeTitle y) (normalizeTitle x)
        || isSubstrOf (normalizeTitle x) (normalizeTitle y))) = false := by
    rw [Bool.eq_false_iff]
    intro hc
    apply h3
    simpa [Bool.and_eq_true, Bool.or_eq_true, and_assoc] using hc
  rw [areTitlesSimilar]
  simp only [ha, hab, hcond, Bool.false_eq_true, if_false]
  by_cases hA : wordsOf (normalizeTitle x) = []
  · simp [hA]
  · by_cases hB : wordsOf (normalizeTitle y) = []
    · simp [hA, hB]
    · have hA' : (wordsOf (normalizeTitle x)).isEmpty = false := by
        cases hx : wordsOf (normalizeTitle x) with
        | nil => exact absurd hx hA
        | cons w ws => rfl
      have hB' : (wordsOf (normalizeTitle y)).isEmpty = false := by
        cases hy : wordsOf (normalizeTitle y) with
        | nil => exact absurd hy hB
        | cons w ws => rfl
      simp [hA, hB, hA', hB']

/-- C4 witness: "submit report" against "submit the quarterly report" is
not an exact or containment match, and the word-overlap rule flags it
(2 matching words over min(2, 4) = 1.0 ≥ 0.6). -/
theorem word_overlap_rule_on_lists_witness :
    areTitlesSimilar "submit report".toList
      "submit the quarterly report".toList = true :=
  (word_overlap_rule_on_lists "submit report".toList
      "submit the quarterly report".toList
      (by decide) (by decide) (by decide)).mpr (by decide)

/-- C5: the optimistic apply of toggle-complete is pointwise: the result
has the same tasks in the same positions, every field other than
`completed` is unchanged everywhere, and `completed` is negated exactly at
the tasks carrying the toggled id and unchanged elsewhere. -/
theorem toggle_flips_only_completed (c : List Task) (i : Nat)
    (_hmem : i ∈ c.map Task.id) :
    List.Forall₂ (fun t tNew =>
      tNew.id = t.id ∧ tNew.title = t.title ∧
      tNew.description = t.description ∧ tNew.createdAt = t.createdAt ∧
      tNew.dueDate = t.dueDate ∧ tNew.priority = t.priority ∧
      tNew.completed = (if t.id = i then !t.completed else t.completed))
      c (toggleOnMutate i c) :=
  toggle_pointwise i c

/-- C5 witness: toggling the only task of a one-task collection. -/
theorem toggle_flips_only_completed_witness :
    List.Forall₂ (fun t tNew =>
      tNew.id = t.id ∧ tNew.title = t.title ∧
      tNew.description = t.description ∧ tNew.createdAt = t.createdAt ∧
      tNew.dueDate = t.dueDate ∧ tNew.priority = t.priority ∧
      tNew.completed = (if t.id = 1 then !t.completed else t.completed))
      [sampleTask 1 false none] (toggleOnMutate 1 [sampleTask 1 false none]) :=
  toggle_flips_only_completed [sampleTask 1 false none] 1 (by decide)

/-- C6: a create attempt whose title is empty or whitespace-only, or whose
due date is malformed (nonblank but unparseable), is rejected before any
optimistic apply: the submission outcome is `rejected` and the collection
is left exactly as it was. -/
theorem invalid_create_rejected (parseDate : Str → Option Nat)
    (v : TaskFormValues) (tasks : List Task) (now : Nat)
    (h : (trimWS v.title).isEmpty = true ∨
        ((trimWS v.dueDate).isEmpty = false ∧ parseDate v.dueDate = none)) :
    handleCreateSubmit parseDate v tasks = SubmitOutcome.rejected ∧
    submitThenApply parseDate v tasks now = tasks := by
  have hr : handleCreateSubmit parseDate v tasks = SubmitOutcome.rejected := by
    rcases h with h | ⟨h1, h2⟩
    · simp [handleCreateSubmit, h]
    · by_cases ht : (trimWS v.title).isEmpty
      · simp [handleCreateSubmit, ht]
      · simp [handleCreateSubmit, ht, isDueDateValid, h1, h2]
  exact ⟨hr, by simp [submitThenApply, hr]⟩

/-- C6 witness: a whitespace-only title is rejected and the collection
stays empty. -/
theorem invalid_create_rejected_witness :
    handleCreateSubmit (fun _ => none)
        ⟨"   ".toList, [], Priority.medium, []⟩ [] = SubmitOutcome.rejected ∧
    submitThenApply (fun _ => none)
        ⟨"   ".toList, [], Priority.medium, []⟩ [] 5 = [] :=
  invalid_create_rejected (fun _ => none)
    ⟨"   ".toList, [], Priority.medium, []⟩ [] 5 (Or.inl (by decide))

/-- C7: the summary counts satisfy total = number of tasks, completed =
number with completed true, pending = number with completed false, and
overdue = number of incomplete tasks whose due date is set, parses, and is
strictly before the start of the current day (assuming the platform parser
rejects the empty string, as JS `new Date("")` is invalid); in particular
the claim's 3-task collection has overdue count 1. -/
theorem summary_counts_correct (parseDate : Str → Option Nat) (now : Nat)
    (tasks : List Task) (hblank : parseDate [] = none) :
    (taskSummary parseDate now tasks).total = tasks.length ∧
    (taskSummary parseDate now tasks).completed
      = (tasks.filter (fun t => t.completed)).length ∧
    (taskSummary parseDate now tasks).pending
      = (tasks.filter (fun t => !t.completed)).length ∧
    (taskSummary parseDate now tasks).overdue
      = (tasks.filter (fun t =>
          !t.completed &&
            (match t.dueDate with
             | some s =>
               match parseDate s with
               | some d => decide (d < startOfDay now)
               | none => false
             | none => false))).length ∧
    (taskSummary demoParse 1704888000000
        [sampleTask 1 false (some "2024-01-09T23:00".toList),
         sampleTask 2 false none,
         sampleTask 3 true (some "2024-01-09T23:00".toList)]).overdue = 1 := by
  refine ⟨rfl, rfl, rfl, ?_, by decide⟩
  simp only [taskSummary]
  apply congrArg List.length
  apply List.filter_congr
  intro t _
  by_cases hc : t.completed
  · simp [isOverdueAt, hc]
  · cases hd : t.dueDate with
    | none => simp [isOverdueAt, hasDue, hc, hd]
    | some s =>
      cases s with
      | nil => simp [isOverdueAt, hasDue, hc, hd, hblank]
      | cons ch cs =>
        cases hp : parseDate (ch :: cs) <;>
          simp [isOverdueAt, hasDue, hc, hd, hp]

/-- C7 witness: the claim's 3-task example under the demo parser. -/
theorem summary_counts_correct_witness :
    (taskSummary demoParse 1704888000000
        [sampleTask 1 false (some "2024-01-09T23:00".toList),
         sampleTask 2 false none,
         sampleTask 3 true (some "2024-01-09T23:00".toList)]).overdue = 1 :=
  (summary_counts_correct demoParse 1704888000000
      [sampleTask 1 false (some "2024-01-09T23:00".toList),
       sampleTask 2 false none,
       sampleTask 3 true (some "2024-01-09T23:00".toList)]
      (by decide)).2.2.2.2

/-- C8 counterexample: the titles "  " and " " both normalize to the empty
string — exactly equal after normalization — yet the matcher does not flag
the pair similar, because of the empty-candidate guard. -/
theorem equal_empty_normalization_not_flagged :
    normalizeTitle "  ".toList = normalizeTitle " ".toList ∧
    areTitlesSimilar "  ".toList " ".toList = false := by
  decide

/-- C8 (amended): the matcher normalizes by lowercasing, trimming and
collapsing whitespace runs; provided the normalized candidate is nonempty,
exact equality after normalization flags the pair similar, and substring
containment of one normalized string of length at least 2 in the other
flags it similar; areSimilar("Buy milk", "buy   MILK") is true and
areSimilar("Call mom", "Clean kitchen") is false. -/
theorem similarity_equality_and_containment (x y : Str)
    (h1 : normalizeTitle x ≠ [])
    (h : normalizeTitle x = normalizeTitle y ∨
        (2 ≤ (normalizeTitle x).length ∧
          isSubstrOf (normalizeTitle x) (normalizeTitle y) = true) ∨
        (2 ≤ (normalizeTitle y).length ∧
          isSubstrOf (normalizeTitle y) (normalizeTitle x) = true)) :
    areTitlesSimilar x y = true ∧
    areTitlesSimilar "Buy milk".toList "buy   MILK".toList = true ∧
    areTitlesSimilar "Call mom".toList "Clean kitchen".toList = false := by
  refine ⟨?_, by decide, by decide⟩
  have ha : (normalizeTitle x).isEmpty = false := by
    cases hx : normalizeTitle x with
    | nil => exact absurd hx h1
    | cons c cs => rfl
  rcases h with heq | ⟨hlen, hsub⟩ | ⟨hlen, hsub⟩
  · have hy1 : normalizeTitle y ≠ [] := heq ▸ h1
    simp [areTitlesSimilar, ha, heq, hy1]
  · have hlenY : 2 ≤ (normalizeTitle y).length :=
      Nat.le_trans hlen (length_le_of_isSubstrOf _ _ hsub)
    by_cases hab : normalizeTitle x = normalizeTitle y
    · have hy1 : normalizeTitle y ≠ [] := hab ▸ h1
      simp [areTitlesSimilar, ha, hab, hy1]
    · simp [areTitlesSimilar, ha, hab, hlen, hlenY, hsub]
  · have hlenX : 2 ≤ (normalizeTitle x).length :=
      Nat.le_trans hlen (length_le_of_isSubstrOf _ _ hsub)
    by_cases hab : normalizeTitle x = normalizeTitle y
    · have hy1 : normalizeTitle y ≠ [] := hab ▸ h1
      simp [areTitlesSimilar, ha, hab, hy1]
    · simp [areTitlesSimilar, ha, hab, hlen, hlenX, hsub]

/-- C8 witness: "Buy milk" equals "buy   MILK" after normalization. -/
theorem similarity_equality_and_containment_witness :
    areTitlesSimilar "Buy milk".toList "buy   MILK".toList = true ∧
    areTitlesSimilar "Buy milk".toList "buy   MILK".toList = true ∧
    areTitlesSimilar "Call mom".toList "Clean kitchen".toList = false :=
  similarity_equality_and_containment "Buy milk".toList "buy   MILK".toList
    (by decide) (Or.inl (by decide))

/-- C9: for a task id absent from the collection, the optimistic applies of
update, toggle-complete and delete are the identity on the collection. -/
theorem absent_id_mutation_identity (c : List Task) (i : Nat)
    (values : UpdateValues) (h : i ∉ c.map Task.id) :
    updateOnMutate i values c = c ∧ toggleOnMutate i c = c ∧
      deleteOnMutate i c = c := by
  induction c with
  | nil => simp [updateOnMutate, toggleOnMutate, deleteOnMutate]
  | cons t ts ih =>
    simp only [List.map_cons, List.mem_cons, not_or] at h
    obtain ⟨h1, h2⟩ := h
    have hne : t.id ≠ i := fun e => h1 e.symm
    obtain ⟨ih1, ih2, ih3⟩ := ih h2
    simp only [updateOnMutate, toggleOnMutate, deleteOnMutate,
      List.map_cons, List.filter_cons] at ih1 ih2 ih3 ⊢
    simp [hne, ih1, ih2, ih3]

/-- C9 witness: mutating an absent id 2 leaves a one-task collection
unchanged. -/
theorem absent_id_mutation_identity_witness :
    updateOnMutate 2 ⟨none, none, none, none, none⟩ [sampleTask 1 false none]
        = [sampleTask 1 false none] ∧
    toggleOnMutate 2 [sampleTask 1 false none] = [sampleTask 1 false none] ∧
    deleteOnMutate 2 [sampleTask 1 false none] = [sampleTask 1 false none] :=
  absent_id_mutation_identity [sampleTask 1 false none] 2
    ⟨none, none, none, none, none⟩ (by decide)

/-- C10: a candidate title consisting only of whitespace (including the
empty title) yields an empty similar-tasks result and is similar to no
existing title, despite the empty string being a substring of every
title. -/
theorem blank_candidate_never_similar (cand : Str)
    (h : ∀ c ∈ cand, isWS c = true) (tasks : List Task) (t : Str) :
    findSimilarTasks cand tasks = [] ∧ areTitlesSimilar cand t = false := by
  have hn : normalizeTitle cand = [] := normalizeTitle_of_blank cand h
  constructor
  · simp [findSimilarTasks, hn]
  · simp [areTitlesSimilar, hn]

/-- C10 witness: a single-space candidate against a nonempty collection and
a nonempty title. -/
theorem blank_candidate_never_similar_witness :
    findSimilarTasks " ".toList [sampleTask 1 false none] = [] ∧
    areTitlesSimilar " ".toList "Buy milk".toList = false :=
  blank_candidate_never_similar " ".toList (by decide)
    [sampleTask 1 false none] "Buy milk".toList

end Vitasoft

